import Mathlib

/-!
Verification development for the quick-call-dspy repository.

The development shallowly embeds the code of the repository:
* `signaturize/signature_generator.py` — the field/prediction data model,
  code rendering (`to_dspy_field_code`, `generate_code`), the type-mapping
  table and dynamic class construction (`create_signature_class`).
* `signaturize/__init__.py` — `from_dspy_string`.  The Python function
  executes the text with `exec` in a namespace containing only the name
  `dspy` (plus builtins) and collects the defined signature classes.  Its
  behaviour on texts in the signature notation is modelled here by an
  explicit parser over lines; name resolution of type annotations mirrors
  the exec namespace: `dspy.*` and builtin names resolve, while `Literal`,
  `Optional` and `Any` raise a NameError.
* `app.py` — `get_fields_by_type`, `generate_signature`, `run_prediction`;
  `json.loads`/`json.dumps` are modelled by an executable JSON parser and
  printer; the external prediction engine is an oracle parameter.

Machine-level caveats are recorded next to each definition.
-/

namespace QuickCallDspy

/-! ### Character-level helpers used by the parser model -/

/-- Drop an expected prefix from a character list, or fail. -/
def stripPrefixChars : List Char → List Char → Option (List Char)
  | [], cs => some cs
  | _ :: _, [] => none
  | p :: ps, c :: cs => if c = p then stripPrefixChars ps cs else none

/-- Split a character list at newline characters (model of text lines). -/
def splitLinesAux : List Char → List (List Char)
  | [] => [[]]
  | c :: rest =>
    if c = '\n' then [] :: splitLinesAux rest
    else
      match splitLinesAux rest with
      | [] => [[c]]
      | l :: ls => (c :: l) :: ls

/-- Split a string into its lines. -/
def splitLines (s : String) : List String :=
  (splitLinesAux s.data).map fun cs => String.mk cs

/-- Model of the Python `"\n".join(lines)` operation. -/
def joinLines : List String → String
  | [] => ""
  | [l] => l
  | l :: ls => l ++ "\n" ++ joinLines ls

/-- Split a character list at the first occurrence of `" = "`;
returns the part before and the part after the separator. -/
def splitAtEqSep : List Char → Option (List Char × List Char)
  | [] => none
  | c :: rest =>
    if c = ' ' ∧ rest.take 2 = ['=', ' '] then some ([], rest.drop 2)
    else
      match splitAtEqSep rest with
      | none => none
      | some (a, b) => some (c :: a, b)

/-- A line consisting only of spaces (or empty). -/
def isBlank (l : String) : Bool := l.data.all (· = ' ')

/-- A line starting with the four-space indent of a class body. -/
def isIndented (l : String) : Bool :=
  (stripPrefixChars [' ', ' ', ' ', ' '] l.data).isSome

/-- Characters allowed inside a Python identifier. -/
def isIdentChar (c : Char) : Bool := c.isAlphanum || c = '_'

/-- Characters allowed to start a Python identifier. -/
def isIdentStart (c : Char) : Bool := c.isAlpha || c = '_'

/-- Python reserved words (identifiers may not collide with them). -/
def pyKeywords : List String :=
  ["False", "None", "True", "and", "as", "assert", "async", "await", "break",
   "class", "continue", "def", "del", "elif", "else", "except", "finally",
   "for", "from", "global", "if",
   "import", "in", "is", "lambda", "nonlocal", "not", "or", "pass", "raise",
   "return", "try", "while", "with", "yield"]

/-- Validity of a character list as a bare Python identifier. -/
def validIdentChars (cs : List Char) : Bool :=
  match cs with
  | [] => false
  | c :: rest =>
    isIdentStart c && rest.all isIdentChar && !(pyKeywords.contains (String.mk cs))

/-- Validity of a string as a bare Python identifier. -/
def validIdent (s : String) : Bool := validIdentChars s.data

/-! ### Data model of `signature_generator.py` -/

/-- The closed sixteen-tag field-type enumeration (`FieldType`). -/
inductive FieldType
  | STRING | INTEGER | FLOAT | BOOLEAN
  | LIST_STRING | LIST_INT | LIST_FLOAT
  | DICT_STR_STR | DICT_STR_INT | DICT_STR_ANY
  | IMAGE | Audio | LITERAL
  | OPTIONAL_STR | OPTIONAL_INT | OPTIONAL_FLOAT
  deriving DecidableEq, Repr

/-- The string value of each `FieldType` member (it is a `str` enum). -/
def FieldType.value : FieldType → String
  | .STRING => "str"
  | .INTEGER => "int"
  | .FLOAT => "float"
  | .BOOLEAN => "bool"
  | .LIST_STRING => "list[str]"
  | .LIST_INT => "list[int]"
  | .LIST_FLOAT => "list[float]"
  | .DICT_STR_STR => "dict[str, str]"
  | .DICT_STR_INT => "dict[str, int]"
  | .DICT_STR_ANY => "dict[str, Any]"
  | .IMAGE => "dspy.Image"
  | .Audio => "dspy.Audio"
  | .LITERAL => "Literal"
  | .OPTIONAL_STR => "Optional[str]"
  | .OPTIONAL_INT => "Optional[int]"
  | .OPTIONAL_FLOAT => "Optional[float]"

/-- Field roles (`FieldRole`): exactly input and output. -/
inductive FieldRole
  | INPUT | OUTPUT
  deriving DecidableEq, Repr

/-- The `__dspy_field_type` marker dspy stores for a field of each role. -/
def FieldRole.dspyFieldType : FieldRole → String
  | .INPUT => "input"
  | .OUTPUT => "output"

/-- The pydantic model `GeneratedField`.  The Python model declares no
validator relating `literal_values` to `type`, so every combination of the
six attributes is constructible, which this structure reflects. -/
structure GeneratedField where
  name : String
  type : FieldType
  role : FieldRole
  description : String
  literal_values : Option (List String) := none
  default_value : Option String := none
  deriving DecidableEq, Repr

/-- Python truthiness of `self.literal_values` (None and `[]` are falsy). -/
def GeneratedField.hasLiteralValues (f : GeneratedField) : Bool :=
  !(f.literal_values.getD []).isEmpty

/-- Model of the Python `repr` of the strings placed inside a rendered
`Literal[...]` annotation (single quotes; escaping not modelled — the
claims never depend on values containing quotes). -/
def pyRepr (v : String) : String := "\x27" ++ v ++ "\x27"

/-- The type annotation chosen by `GeneratedField.to_dspy_field_code`:
`Literal[...]` when the tag is literal with truthy values, else the tag. -/
def GeneratedField.typeAnnStr (f : GeneratedField) : String :=
  if f.type = FieldType.LITERAL ∧ f.hasLiteralValues then
    "Literal[" ++ String.intercalate ", " ((f.literal_values.getD []).map pyRepr) ++ "]"
  else f.type.value

/-- The `InputField`/`OutputField` marker chosen by the role of the field. -/
def GeneratedField.fieldTypeMarker (f : GeneratedField) : String :=
  if f.role = FieldRole.INPUT then "InputField" else "OutputField"

/-- `GeneratedField.to_dspy_field_code`: one rendered line of class-body
code.  The `desc` argument is emitted only for a truthy (non-empty)
description. -/
def GeneratedField.to_dspy_field_code (f : GeneratedField) : String :=
  if f.description = "" then
    f.name ++ ": " ++ f.typeAnnStr ++ " = dspy." ++ f.fieldTypeMarker ++ "()"
  else
    f.name ++ ": " ++ f.typeAnnStr ++ " = dspy." ++ f.fieldTypeMarker
      ++ "(desc=\"" ++ f.description ++ "\")"

/-- The `dspy.Prediction` envelope returned by `SignatureGenerator.forward`. -/
structure Prediction where
  signature_name : String
  task_description : String
  signature_fields : List GeneratedField
  reasoning : Option String := none
  deriving DecidableEq, Repr

/-- Concrete Python types produced by `_get_python_type_from_field`. -/
inductive PyType
  | str | int | float | bool
  | list (elem : PyType)
  | dict (key value : PyType)
  | optionalTy (base : PyType)
  | anyTy
  | image | audio
  | literalTy (vals : List String)
  deriving DecidableEq, Repr

/-- The `type_map` dictionary of `_get_python_type_from_field`, in source
order: fifteen entries, keyed by the string value of the tag. -/
def type_map : List (String × PyType) :=
  [("str", .str), ("int", .int), ("float", .float), ("bool", .bool),
   ("list[str]", .list .str), ("list[int]", .list .int),
   ("list[float]", .list .float),
   ("dict[str, str]", .dict .str .str), ("dict[str, int]", .dict .str .int),
   ("dict[str, Any]", .dict .str .anyTy),
   ("Optional[str]", .optionalTy .str), ("Optional[int]", .optionalTy .int),
   ("Optional[float]", .optionalTy .float),
   ("dspy.Image", .image), ("dspy.Audio", .audio)]

/-- Core of `_get_python_type_from_field`, phrased over the string
value (`type_str = field.type.value`; the `field.type == FieldType.LITERAL`
check on a `str` enum is equivalent to `type_str == "Literal"`).  The
literal branch fires only for truthy `literal_values`; otherwise the
string-keyed table is consulted, and a miss raises `TypeError` naming the
offending tag. -/
def getPythonTypeCore (type_str : String) (lits : Option (List String)) :
    Except String PyType :=
  if type_str = "Literal" ∧ !(lits.getD []).isEmpty then
    .ok (.literalTy (lits.getD []))
  else
    match type_map.lookup type_str with
    | some t => .ok t
    | none =>
      .error ("Unsupported field type for dynamic class creation: " ++ type_str)

/-- `SignatureGenerator._get_python_type_from_field` on a `GeneratedField`. -/
def getPythonTypeFromField (f : GeneratedField) : Except String PyType :=
  getPythonTypeCore f.type.value f.literal_values

/-- Python dict assignment `d[k] = v`: overwrites in place, keeping the
original insertion position of an existing key. -/
def assocInsert {α : Type} (k : String) (v : α) :
    List (String × α) → List (String × α)
  | [] => [(k, v)]
  | (k', v') :: rest =>
    if k' = k then (k', v) :: rest else (k', v') :: assocInsert k v rest

/-- The dynamically created signature class: its name, docstring, and the
ordered attribute/annotation record per field (annotation type, role
marker, description). -/
structure DynSignature where
  class_name : String
  docstring : String
  attrs : List (String × PyType × FieldRole × String)
  deriving DecidableEq, Repr

/-- `SignatureGenerator.create_signature_class`: folds over the fields of
the prediction, converting each tag via the type table (first failure raises) and
storing one field instance plus annotation per name (dict semantics). -/
def create_signature_class (p : Prediction) : Except String DynSignature := do
  let attrs ← p.signature_fields.foldlM
    (fun acc f => do
      let ty ← getPythonTypeFromField f
      pure (assocInsert f.name (ty, f.role, f.description) acc))
    []
  pure ⟨p.signature_name, p.task_description, attrs⟩

/-- The `code_lines` list built by `SignatureGenerator.generate_code`:
header, docstring line, a blank line, then one rendered line per field
(the computed import list is not prepended — the two `code_lines` append
calls for it are commented out in the source). -/
def generate_code_lines (p : Prediction) : List String :=
  ("class " ++ p.signature_name ++ "(dspy.Signature):")
    :: ("    \"\"\"" ++ p.task_description ++ "\"\"\"")
    :: ""
    :: p.signature_fields.map (fun f => "    " ++ f.to_dspy_field_code)

/-- `SignatureGenerator.generate_code`: the joined rendered text. -/
def generate_code (p : Prediction) : String := joinLines (generate_code_lines p)

/-- `SignatureGenerator.get_required_imports`: the import lines computed
(but not used) for a field list. -/
def get_required_imports (fields : List GeneratedField) : List String :=
  let typingImports : List String :=
    (if fields.any (fun f => f.type = .LITERAL) then ["Literal"] else [])
      ++ (if fields.any (fun f =>
            f.type = .OPTIONAL_STR ∨ f.type = .OPTIONAL_INT ∨
            f.type = .OPTIONAL_FLOAT) then ["Optional"] else [])
      ++ (if fields.any (fun f =>
            f.type = .LIST_STRING ∨ f.type = .LIST_INT ∨
            f.type = .LIST_FLOAT) then ["List"] else [])
      ++ (if fields.any (fun f =>
            f.type = .DICT_STR_STR ∨ f.type = .DICT_STR_INT ∨
            f.type = .DICT_STR_ANY) then ["Dict"] else [])
      ++ (if fields.any (fun f => f.type = .DICT_STR_ANY) then ["Any"] else [])
  if typingImports.isEmpty then ["import dspy"]
  else
    ["import dspy",
     "from typing import " ++ String.intercalate ", "
       (typingImports.mergeSort (fun a b => a ≤ b))]

/-! ### Model of `signaturize.from_dspy_string`

The Python function runs `exec(cls_string, {"dspy": dspy})` and collects
the classes subclassing `dspy.Signature`.  The model below parses the
signature notation directly.  Name resolution inside annotations mirrors
the exec namespace: builtins (`str`, `int`, `float`, `bool`, `list`,
`dict`) and `dspy.*` resolve; `Literal`, `Optional` and `Any` are not in
the namespace and raise `NameError`.  Texts outside the modelled grammar
are reported as a generic execution error (conservative: the real `exec`
may accept other Python statements, but no claim below depends on such
texts). -/

/-- Sequential effectful map in the `Except` monad (models a Python loop
whose body may raise: the first failure aborts the whole loop). -/
def mapMExcept {α β ε : Type} (f : α → Except ε β) :
    List α → Except ε (List β)
  | [] => .ok []
  | a :: as => do
    let b ← f a
    let bs ← mapMExcept f as
    pure (b :: bs)

/-- A field of a parsed signature class. -/
structure ParsedField where
  name : String
  annType : PyType
  role : FieldRole
  desc : Option String
  deriving DecidableEq, Repr

/-- A parsed signature class (`dspy.Signature` subclass). -/
structure ParsedSignature where
  class_name : String
  docstring : Option String
  fields : List ParsedField
  deriving DecidableEq, Repr

/-- Resolution of a type-annotation text in the exec namespace
`\x7b"dspy": dspy\x7d` plus builtins. -/
def resolveAnn (s : String) : Except String PyType :=
  if s = "str" then .ok .str
  else if s = "int" then .ok .int
  else if s = "float" then .ok .float
  else if s = "bool" then .ok .bool
  else if s = "list[str]" then .ok (.list .str)
  else if s = "list[int]" then .ok (.list .int)
  else if s = "list[float]" then .ok (.list .float)
  else if s = "dict[str, str]" then .ok (.dict .str .str)
  else if s = "dict[str, int]" then .ok (.dict .str .int)
  else if s = "dspy.Image" then .ok .image
  else if s = "dspy.Audio" then .ok .audio
  else if s = "dict[str, Any]" then .error "name \x27Any\x27 is not defined"
  else if s = "Optional[str]" ∨ s = "Optional[int]" ∨ s = "Optional[float]" then
    .error "name \x27Optional\x27 is not defined"
  else if s.startsWith "Literal" then .error "name \x27Literal\x27 is not defined"
  else .error ("name \x27" ++ s ++ "\x27 is not defined")

/-- Parse one class-body field line
`    name: annotation = dspy.InputField(desc="...")` (or `OutputField`,
or no `desc` argument).  Field names shadowing the `dspy` binding are
rejected as out of the modelled grammar. -/
def parseFieldLine (l : String) : Except String ParsedField :=
  match stripPrefixChars [' ', ' ', ' ', ' '] l.data with
  | none => .error "invalid syntax"
  | some cs1 =>
    let nameCs := cs1.takeWhile isIdentChar
    let cs2 := cs1.dropWhile isIdentChar
    let name := String.mk nameCs
    if !validIdentChars nameCs ∨ name = "dspy" then .error "invalid syntax"
    else
      match stripPrefixChars [':', ' '] cs2 with
      | none => .error "invalid syntax"
      | some cs3 =>
        match splitAtEqSep cs3 with
        | none => .error "invalid syntax"
        | some (annCs, cs4) =>
          match resolveAnn (String.mk annCs) with
          | .error e => .error e
          | .ok ty =>
            match stripPrefixChars "dspy.".data cs4 with
            | none => .error "invalid syntax"
            | some cs5 =>
              let finish (role : FieldRole) (cs6 : List Char) :
                  Except String ParsedField :=
                if cs6 = [')'] then .ok ⟨name, ty, role, none⟩
                else
                  match stripPrefixChars "desc=\"".data cs6 with
                  | none => .error "invalid syntax"
                  | some cs7 =>
                    let d := cs7.takeWhile (· ≠ '"')
                    if cs7.dropWhile (· ≠ '"') = ['"', ')'] then
                      .ok ⟨name, ty, role, some (String.mk d)⟩
                    else .error "invalid syntax"
              match stripPrefixChars "InputField(".data cs5 with
              | some cs6 => finish .INPUT cs6
              | none =>
                match stripPrefixChars "OutputField(".data cs5 with
                | some cs6 => finish .OUTPUT cs6
                | none => .error "invalid syntax"

/-- Recognise a single-line docstring `    """..."""`. -/
def isDocstringLine (l : String) : Bool :=
  (stripPrefixChars [' ', ' ', ' ', ' ', '"', '"', '"'] l.data).isSome

/-- Parse a single-line docstring, returning its text. -/
def parseDocstringLine (l : String) : Except String String :=
  match stripPrefixChars [' ', ' ', ' ', ' ', '"', '"', '"'] l.data with
  | none => .error "invalid syntax"
  | some cs =>
    let d := cs.takeWhile (· ≠ '"')
    if cs.dropWhile (· ≠ '"') = ['"', '"', '"'] then .ok (String.mk d)
    else .error "invalid syntax"

/-- The last field in a list carrying the given name, defaulting to `d`. -/
def lastWithName (n : String) (d : ParsedField) : List ParsedField → ParsedField
  | [] => d
  | f :: rest =>
    if f.name = n then lastWithName n f rest else lastWithName n d rest

/-- Fuel-indexed worker for `dedupFields` (the fuel makes the recursion
structural; `fs.length` fuel always suffices). -/
def dedupFieldsAux : Nat → List ParsedField → List ParsedField
  | 0, _ => []
  | _ + 1, [] => []
  | fuel + 1, f :: rest =>
    lastWithName f.name f rest
      :: dedupFieldsAux fuel (rest.filter (fun g => g.name ≠ f.name))

/-- Python dict-update semantics for repeated class-body bindings of the
same field name: the first occurrence keeps its position, the last
occurrence supplies the value. -/
def dedupFields (fs : List ParsedField) : List ParsedField :=
  dedupFieldsAux fs.length fs

/-- Parse the body of one class block: an optional single-line docstring
followed by field lines, blank lines skipped. -/
def parseBlock (name : String) (body : List String) :
    Except String ParsedSignature := do
  let bodyNB := body.filter (fun l => !isBlank l)
  match bodyNB with
  | d :: rest =>
    if isDocstringLine d then do
      let doc ← parseDocstringLine d
      let fields ← mapMExcept parseFieldLine rest
      pure ⟨name, some doc, dedupFields fields⟩
    else do
      let fields ← mapMExcept parseFieldLine bodyNB
      pure ⟨name, none, dedupFields fields⟩
  | [] => pure ⟨name, none, []⟩

/-- Recognise a class-header line `class Name(dspy.Signature):`. -/
def parseClassHeader (l : String) : Option String :=
  match stripPrefixChars "class ".data l.data with
  | none => none
  | some cs =>
    let nameCs := cs.takeWhile isIdentChar
    let rest := cs.dropWhile isIdentChar
    if validIdentChars nameCs ∧ rest = "(dspy.Signature):".data then
      some (String.mk nameCs)
    else none

/-- Worker for `splitBlocks`: walks the lines carrying the currently open
class block (header name plus reversed body lines). -/
def splitBlocksAux :
    List String → Option (String × List String)
      → Except String (List (String × List String))
  | [], none => .ok []
  | [], some (n, body) => .ok [(n, body)]
  | line :: rest, cur =>
    if isBlank line then
      match cur with
      | none => splitBlocksAux rest none
      | some (n, body) => splitBlocksAux rest (some (n, body ++ [line]))
    else
      match parseClassHeader line with
      | some name =>
        match cur with
        | none => splitBlocksAux rest (some (name, []))
        | some (n, body) =>
          match splitBlocksAux rest (some (name, [])) with
          | .ok blocks => .ok ((n, body) :: blocks)
          | .error e => .error e
      | none =>
        if isIndented line then
          match cur with
          | none => .error "invalid syntax"
          | some (n, body) => splitBlocksAux rest (some (n, body ++ [line]))
        else .error "invalid syntax"

/-- Split the lines of the text into class blocks: each block is a header line
followed by its indented (or blank) body lines.  A non-blank top-level
line that is not a class header is outside the modelled grammar. -/
def splitBlocks (lines : List String) :
    Except String (List (String × List String)) :=
  splitBlocksAux lines none

/-- The last signature in a list carrying the given class name,
defaulting to `d`. -/
def lastWithClassName (n : String) (d : ParsedSignature) :
    List ParsedSignature → ParsedSignature
  | [] => d
  | s :: rest =>
    if s.class_name = n then lastWithClassName n s rest
    else lastWithClassName n d rest

/-- Fuel-indexed worker for `dedupSigs` (the fuel makes the recursion
structural; `sigs.length` fuel always suffices). -/
def dedupSigsAux : Nat → List ParsedSignature → List ParsedSignature
  | 0, _ => []
  | _ + 1, [] => []
  | fuel + 1, s :: rest =>
    lastWithClassName s.class_name s rest
      :: dedupSigsAux fuel (rest.filter (fun t => t.class_name ≠ s.class_name))

/-- Python dict-update semantics for repeated class-statement bindings of
the same class name in the exec namespace: the first occurrence keeps its
position, the last class object supplies the value. -/
def dedupSigs (sigs : List ParsedSignature) : List ParsedSignature :=
  dedupSigsAux sigs.length sigs

/-- The namespace produced by `exec`: every signature class defined by the
text, in definition order — one namespace entry per class NAME, a later
same-named class statement overwriting the earlier binding in place. -/
def execModel (lines : List String) : Except String (List ParsedSignature) := do
  let blocks ← splitBlocks lines
  let sigs ← mapMExcept (fun nb => parseBlock nb.1 nb.2) blocks
  pure (dedupSigs sigs)

/-- `signaturize.from_dspy_string`: exec the text, collect the signature
classes, require exactly one; every failure (including the two deliberate
`ValueError`s) is wrapped in `RuntimeError("An unexpected error occurred:
...")` by the surrounding `except` clause. -/
def from_dspy_string (s : String) : Except String ParsedSignature :=
  let inner : Except String ParsedSignature := do
    let sigs ← execModel (splitLines s)
    match sigs with
    | [] =>
      .error "No class inheriting from dspy.Signature was found in the provided string."
    | [sig] => .ok sig
    | sigs =>
      .error ("Multiple dspy.Signature classes found: "
        ++ String.intercalate ", " (sigs.map (fun c => c.class_name))
        ++ ". The string must define exactly one.")
  match inner with
  | .ok sig => .ok sig
  | .error e => .error ("An unexpected error occurred: " ++ e)

/-! ### Model of the Python `json` library as used by `app.py` -/

/-- JSON values as produced by `json.loads` (numbers restricted to
integers — the claims only exercise integer payloads). -/
inductive JsonVal
  | null
  | bool (b : Bool)
  | num (n : Int)
  | str (s : String)
  | arr (elems : List JsonVal)
  | obj (members : List (String × JsonVal))

/-- `isinstance(x, dict)` on a decoded JSON value. -/
def JsonVal.isObj : JsonVal → Bool
  | .obj _ => true
  | _ => false

/-- Whitespace skipping for the JSON reader. -/
def jsonSkipWs (cs : List Char) : List Char :=
  cs.dropWhile fun c => c = ' ' || c = '\n' || c = '\t' || c = '\r'

/-- Digit-string to integer accumulator. -/
def digitsToInt (ds : List Char) : Int :=
  ds.foldl (fun acc c => acc * 10 + (c.toNat - '0'.toNat : Int)) 0

mutual

/-- Fuel-indexed JSON value reader (model of `json.loads`; string escapes
are not modelled — no claim depends on them). -/
def parseJsonVal : Nat → List Char → Except String (JsonVal × List Char)
  | 0, _ => .error "Expecting value"
  | Nat.succ fuel, cs =>
    match jsonSkipWs cs with
    | [] => .error "Expecting value"
    | c :: rest =>
      if c = 'n' then
        match stripPrefixChars "ull".data rest with
        | some r => .ok (.null, r)
        | none => .error "Expecting value"
      else if c = 't' then
        match stripPrefixChars "rue".data rest with
        | some r => .ok (.bool true, r)
        | none => .error "Expecting value"
      else if c = 'f' then
        match stripPrefixChars "alse".data rest with
        | some r => .ok (.bool false, r)
        | none => .error "Expecting value"
      else if c = '"' then
        let sCs := rest.takeWhile (· ≠ '"')
        match rest.dropWhile (· ≠ '"') with
        | '"' :: r => .ok (.str (String.mk sCs), r)
        | _ => .error "Unterminated string"
      else if c = '[' then
        match jsonSkipWs rest with
        | ']' :: r => .ok (.arr [], r)
        | _ =>
          match parseJsonItems fuel rest with
          | .ok (elems, r) => .ok (.arr elems, r)
          | .error e => .error e
      else if c = '\x7b' then
        match jsonSkipWs rest with
        | '\x7d' :: r => .ok (.obj [], r)
        | _ =>
          match parseJsonMembers fuel rest with
          | .ok (kvs, r) => .ok (.obj kvs, r)
          | .error e => .error e
      else if c = '-' then
        let ds := rest.takeWhile Char.isDigit
        if ds.isEmpty then .error "Expecting value"
        else .ok (.num (-(digitsToInt ds)), rest.dropWhile Char.isDigit)
      else if c.isDigit then
        let ds := (c :: rest).takeWhile Char.isDigit
        .ok (.num (digitsToInt ds), (c :: rest).dropWhile Char.isDigit)
      else .error "Expecting value"

/-- Comma-separated array items, up to and including the closing `]`. -/
def parseJsonItems : Nat → List Char → Except String (List JsonVal × List Char)
  | 0, _ => .error "Expecting value"
  | Nat.succ fuel, cs =>
    match parseJsonVal fuel cs with
    | .error e => .error e
    | .ok (v, r) =>
      match jsonSkipWs r with
      | ',' :: r2 =>
        match parseJsonItems fuel r2 with
        | .ok (vs, r3) => .ok (v :: vs, r3)
        | .error e => .error e
      | ']' :: r2 => .ok ([v], r2)
      | _ => .error "Expecting \x27,\x27 delimiter"

/-- Comma-separated object members, up to and including the closing brace. -/
def parseJsonMembers :
    Nat → List Char → Except String (List (String × JsonVal) × List Char)
  | 0, _ => .error "Expecting value"
  | Nat.succ fuel, cs =>
    match jsonSkipWs cs with
    | '"' :: rest =>
      let kCs := rest.takeWhile (· ≠ '"')
      match rest.dropWhile (· ≠ '"') with
      | '"' :: r =>
        match jsonSkipWs r with
        | ':' :: r2 =>
          match parseJsonVal fuel r2 with
          | .error e => .error e
          | .ok (v, r3) =>
            match jsonSkipWs r3 with
            | ',' :: r4 =>
              match parseJsonMembers fuel r4 with
              | .ok (kvs, r5) => .ok ((String.mk kCs, v) :: kvs, r5)
              | .error e => .error e
            | '\x7d' :: r4 => .ok ([(String.mk kCs, v)], r4)
            | _ => .error "Expecting \x27,\x27 delimiter"
        | _ => .error "Expecting \x27:\x27 delimiter"
      | _ => .error "Unterminated string"
    | _ => .error "Expecting property name enclosed in double quotes"

end

/-- `json.loads`: parse a complete JSON document. -/
def json_loads (s : String) : Except String JsonVal :=
  match parseJsonVal (s.length + 1) s.data with
  | .ok (v, rest) => if jsonSkipWs rest = [] then .ok v else .error "Extra data"
  | .error e => .error e

/-- `json.dumps(d, indent=2)` for a flat string-valued dictionary, as used
for the input template (key escaping not modelled). -/
def json_dumps_indent2 (d : List (String × String)) : String :=
  match d with
  | [] => "\x7b\x7d"
  | _ =>
    "\x7b\n"
      ++ String.intercalate ",\n"
        (d.map fun kv => "  \"" ++ kv.1 ++ "\": \"" ++ kv.2 ++ "\"")
      ++ "\n\x7d"

/-- `dict.fromkeys(keys, v)`: one entry per distinct key, first-occurrence
order. -/
def dict_fromkeys {α : Type} (keys : List String) (v : α) :
    List (String × α) :=
  keys.foldl (fun acc k => assocInsert k v acc) []

/-! ### Model of the Interactive Application operations (`app.py`) -/

/-- The constructed `dspy.LM` client handle (opaque to the claims). -/
structure LMHandle where
  model_name : String
  api_key : String
  api_base : String
  deriving DecidableEq, Repr

/-- The session LM state as passed to the handlers: Python `None`, or the
dictionary `\x7b"configured": handle-or-None\x7d` built at startup.
(`none` here is the only Python-falsy value of this type; the dictionary
is non-empty and hence truthy even when the handle it wraps is `None`.) -/
def LMState := Option (Option LMHandle)

/-- `get_fields_by_type`: names of the fields of the signature whose
`__dspy_field_type` marker equals the given string, in declaration order. -/
def get_fields_by_type (sig : ParsedSignature) (field_type : String) :
    List String :=
  (sig.fields.filter fun f => f.role.dspyFieldType = field_type).map
    fun f => f.name

/-- Status line returned when `generate_signature` short-circuits. -/
def configureFirstMsg : String :=
  "❌ Error: Configure the LM in the \x27Configuration\x27 tab first."

/-- Status line returned by a successful `generate_signature`. -/
def signatureLoadedMsg : String := "✅ Signature Loaded. Ready to run."

/-- `generate_signature(signature_string, prompt, mode, lm)`.
The gate is the Python test `if not lm:` — it fires only when the state itself is
falsy (`None`), not when the dictionary wraps an absent handle — and the
short-circuit returns the empty string, not the incoming text.  In prompt
mode the code calls `signaturize.from_prompt`, an attribute the
`signaturize` package does not define, so that branch deterministically
raises `AttributeError` (before any engine call), which the `except`
converts to a status line.  Other modes fall through to the string path. -/
def generate_signature (signature_string prompt mode : String)
    (lm : LMState) : String × Option ParsedSignature × String × String :=
  match lm with
  | none => ("", none, json_dumps_indent2 [], configureFirstMsg)
  | some _ =>
    if mode = "prompt" then
      (signature_string, none, json_dumps_indent2 [],
        "❌ Error: module \x27signaturize\x27 has no attribute \x27from_prompt\x27")
    else
      match from_dspy_string signature_string with
      | .ok sig =>
        let input_fields := get_fields_by_type sig "input"
        let input_template := json_dumps_indent2 (dict_fromkeys input_fields "...")
        (signature_string, some sig, input_template, signatureLoadedMsg)
      | .error e =>
        (signature_string, none, json_dumps_indent2 [], "❌ Error: " ++ e)

/-- The external prediction engine (`program(**input_data)` followed by
attribute access on the result), abstracted as an oracle from the decoded
input object to either a raised error or a result object modelled as an
attribute association list. -/
def EngineOracle :=
  List (String × JsonVal) → Except String (List (String × String))

/-- `getattr(result, field)` for each output field, in order; `none`
models an `AttributeError` on a missing attribute. -/
def collectOutputs (names : List String)
    (result : List (String × String)) : Option (List (String × String)) :=
  names.mapM fun n => (result.lookup n).map fun v => (n, v)

/-- `run_prediction(program, input_data, lm)`.  The `Except` layer models
exceptions escaping the handler: `json.loads` is called OUTSIDE the `try`
block, so a JSON decode error propagates to the caller (`.error`); the
engine call and output extraction are inside the `try`, so their failures
are converted to a status line. -/
def run_prediction (engine : EngineOracle) (program : Option ParsedSignature)
    (input_data : String) (lm : LMState) :
    Except String (List (String × String) × String) :=
  match program with
  | none =>
    .ok ([], "❌ Error: No signature is loaded. Please generate one first.")
  | some prog =>
    match lm with
    | none => .ok ([], "❌ Error: LM is not configured. Please configure it first.")
    | some none =>
      .ok ([], "❌ Error: LM is not configured. Please configure it first.")
    | some (some _) =>
      match json_loads input_data with
      | .error e => .error e
      | .ok v =>
        match v with
        | .obj kvs =>
          match engine kvs with
          | .error e => .ok ([], "❌ Error during prediction: " ++ e)
          | .ok result =>
            let output_fields := get_fields_by_type prog "output"
            match collectOutputs output_fields result with
            | some d => .ok (d, "✅ Prediction Complete.")
            | none =>
              .ok ([], "❌ Error during prediction: missing output attribute")
        | _ => .ok ([], "❌ Error: Input must be valid JSON.")

/-- The documented example signature pre-filling the editor
(`EXAMPLE_CLASS_STRING.strip()`). -/
def EXAMPLE_CLASS_STRING : String :=
  "class BasicQA(dspy.Signature):\n"
    ++ "    \"\"\"Answer questions with short factoid answers.\"\"\"\n"
    ++ "    question: str = dspy.InputField(desc=\"The question to answer.\")\n"
    ++ "    answer: str = dspy.OutputField(desc=\"A concise answer to the question.\")"

/-! ### Well-formedness predicates used as round-trip hypotheses -/

/-- The tags whose rendered annotation resolves in the exec
namespace (`dspy` plus builtins).  `Literal`, the three `Optional` tags
and `dict[str, Any]` reference names absent from that namespace. -/
def resolvableTag : FieldType → Bool
  | .STRING | .INTEGER | .FLOAT | .BOOLEAN
  | .LIST_STRING | .LIST_INT | .LIST_FLOAT
  | .DICT_STR_STR | .DICT_STR_INT
  | .IMAGE | .Audio => true
  | _ => false

/-- The parsed annotation type of a resolvable tag. -/
def tyOf : FieldType → PyType
  | .STRING => .str
  | .INTEGER => .int
  | .FLOAT => .float
  | .BOOLEAN => .bool
  | .LIST_STRING => .list .str
  | .LIST_INT => .list .int
  | .LIST_FLOAT => .list .float
  | .DICT_STR_STR => .dict .str .str
  | .DICT_STR_INT => .dict .str .int
  | .IMAGE => .image
  | .Audio => .audio
  | _ => .str

/-- Strings safe to embed in a rendered double-quoted literal or
docstring: no quote, newline, or backslash. -/
def NoBadChars (s : String) : Prop :=
  ∀ c ∈ s.data, c ≠ '"' ∧ c ≠ '\n' ∧ c ≠ '\\'

instance (s : String) : Decidable (NoBadChars s) := by
  unfold NoBadChars; infer_instance

/-- A generated field whose rendered line is faithfully round-trippable:
valid non-shadowing identifier name, safe description text, and an
annotation that resolves in the exec namespace of the parser. -/
def GoodField (f : GeneratedField) : Prop :=
  validIdent f.name = true ∧ f.name ≠ "dspy" ∧ NoBadChars f.description ∧
    resolvableTag f.type = true

instance (f : GeneratedField) : Decidable (GoodField f) := by
  unfold GoodField; infer_instance

/-- A generated prediction in the round-trippable fragment: valid class
name, safe docstring text, non-empty field list of good fields with
pairwise-distinct names. -/
def GoodPrediction (p : Prediction) : Prop :=
  validIdent p.signature_name = true ∧ NoBadChars p.task_description ∧
    p.signature_fields ≠ [] ∧ (∀ f ∈ p.signature_fields, GoodField f) ∧
    (p.signature_fields.map fun f => f.name).Nodup

instance (p : Prediction) : Decidable (GoodPrediction p) := by
  unfold GoodPrediction; infer_instance

/-- The parsed form of one rendered good field: same name and role, the
annotation resolved through the exec namespace, the description carried
over (absent when rendered without a `desc` argument). -/
def expectedField (f : GeneratedField) : ParsedField :=
  ⟨f.name, tyOf f.type, f.role,
    if f.description = "" then none else some f.description⟩

/-- The type-mapping table as stated by the spec (§4.2), written from the
words of the spec for comparison with the source `type_map`.  The literal
tag is not a table entry; its row here is never used. -/
def specTypeTable : FieldType → PyType
  | .STRING => .str
  | .INTEGER => .int
  | .FLOAT => .float
  | .BOOLEAN => .bool
  | .LIST_STRING => .list .str
  | .LIST_INT => .list .int
  | .LIST_FLOAT => .list .float
  | .DICT_STR_STR => .dict .str .str
  | .DICT_STR_INT => .dict .str .int
  | .DICT_STR_ANY => .dict .str .anyTy
  | .IMAGE => .image
  | .Audio => .audio
  | .OPTIONAL_STR => .optionalTy .str
  | .OPTIONAL_INT => .optionalTy .int
  | .OPTIONAL_FLOAT => .optionalTy .float
  | .LITERAL => .anyTy

/-! ### Concrete sample values used by witnesses and counterexamples -/

/-- A prediction with a single field of the given tag and literal values. -/
def singleFieldPrediction (t : FieldType) (lv : Option (List String)) :
    Prediction :=
  ⟨"Sig", "doc", [⟨"field1", t, FieldRole.INPUT, "d", lv, none⟩], none⟩

/-- A sample LM client handle. -/
def sampleLM : LMHandle := ⟨"m", "k", "b"⟩

/-- A sample parsed signature with one input and one output field. -/
def sampleSig : ParsedSignature :=
  ⟨"S", none,
   [⟨"question", .str, FieldRole.INPUT, none⟩,
    ⟨"answer", .str, FieldRole.OUTPUT, none⟩]⟩

/-- A sample well-formed generated prediction with one input and one
output field. -/
def basicPred : Prediction :=
  ⟨"BasicQA", "Answer questions.",
   [⟨"question", FieldType.STRING, FieldRole.INPUT, "The question.", none, none⟩,
    ⟨"answer", FieldType.STRING, FieldRole.OUTPUT, "The answer.", none, none⟩],
   none⟩

/-- A signature text with input fields `a`, `b` and output field `c`. -/
def twoInputSig : String :=
  joinLines
    ["class T(dspy.Signature):",
     "    \"\"\"d\"\"\"",
     "    a: str = dspy.InputField(desc=\"x\")",
     "    b: str = dspy.InputField(desc=\"y\")",
     "    c: str = dspy.OutputField(desc=\"z\")"]

end QuickCallDspy

namespace QuickCallDspy

/-! ## Theorems -/

/-! ### Character-level inversion lemmas -/

theorem stripPrefixChars_append (pre rest : List Char) :
    stripPrefixChars pre (pre ++ rest) = some rest := by
  induction pre with
  | nil => rfl
  | cons c cs ih => simp [stripPrefixChars, ih]

theorem takeWhile_append_cons (p : Char → Bool) (a : List Char) (b : Char)
    (l : List Char) (ha : ∀ c ∈ a, p c = true) (hb : p b = false) :
    (a ++ b :: l).takeWhile p = a := by
  induction a with
  | nil => simp [List.takeWhile_cons, hb]
  | cons c cs ih =>
    have hc : p c = true := ha c (by simp)
    simp only [List.cons_append, List.takeWhile_cons, hc, if_true]
    have := ih fun d hd => ha d (by simp [hd])
    simp [this]

theorem dropWhile_append_cons (p : Char → Bool) (a : List Char) (b : Char)
    (l : List Char) (ha : ∀ c ∈ a, p c = true) (hb : p b = false) :
    (a ++ b :: l).dropWhile p = b :: l := by
  induction a with
  | nil => simp [List.dropWhile_cons, hb]
  | cons c cs ih =>
    have hc : p c = true := ha c (by simp)
    simp only [List.cons_append, List.dropWhile_cons, hc, if_true]
    exact ih fun d hd => ha d (by simp [hd])

theorem splitAtEqSep_append (a r : List Char) (h : '=' ∉ a) :
    splitAtEqSep (a ++ ' ' :: '=' :: ' ' :: r) = some (a, r) := by
  induction a with
  | nil => simp [splitAtEqSep]
  | cons c cs ih =>
    have hne : ¬(c = ' ' ∧ (cs ++ ' ' :: '=' :: ' ' :: r).take 2 = ['=', ' ']) := by
      rintro ⟨-, htake⟩
      cases cs with
      | nil => simp at htake
      | cons d ds =>
        have hd : d ≠ '=' := fun hd => h (by simp [hd])
        cases ds with
        | nil => simp at htake; exact hd htake
        | cons e es => simp at htake; exact hd htake.1
    have h' : '=' ∉ cs := fun hc => h (by simp [hc])
    simp only [List.cons_append, splitAtEqSep, List.append_eq]
    rw [if_neg hne, ih h']

theorem splitLinesAux_append (a r : List Char) (h : '\n' ∉ a) :
    splitLinesAux (a ++ '\n' :: r) = a :: splitLinesAux r := by
  induction a with
  | nil => simp [splitLinesAux]
  | cons c cs ih =>
    have hc : c ≠ '\n' := fun hc => h (by simp [hc])
    have h' : '\n' ∉ cs := fun hm => h (by simp [hm])
    simp only [List.cons_append, splitLinesAux, List.append_eq]
    rw [if_neg hc, ih h']

theorem splitLinesAux_no_newline (a : List Char) (h : '\n' ∉ a) :
    splitLinesAux a = [a] := by
  induction a with
  | nil => rfl
  | cons c cs ih =>
    have hc : c ≠ '\n' := fun hc => h (by simp [hc])
    have h' : '\n' ∉ cs := fun hm => h (by simp [hm])
    simp only [splitLinesAux, hc, if_false, ih h']

theorem splitLines_joinLines (ls : List String)
    (h : ∀ l ∈ ls, '\n' ∉ l.data) (hne : ls ≠ []) :
    splitLines (joinLines ls) = ls := by
  induction ls with
  | nil => exact absurd rfl hne
  | cons l rest ih =>
    cases rest with
    | nil =>
      simp only [joinLines, splitLines]
      rw [splitLinesAux_no_newline l.data (h l (by simp))]
      simp
    | cons l2 rest2 =>
      have hjoin : joinLines (l :: l2 :: rest2) = l ++ "\n" ++ joinLines (l2 :: rest2) := rfl
      simp only [splitLines, hjoin]
      have hdata : (l ++ "\n" ++ joinLines (l2 :: rest2)).data
          = l.data ++ '\n' :: (joinLines (l2 :: rest2)).data := by
        rw [String.data_append, String.data_append]
        simp [show ("\n" : String).data = ['\n'] from rfl]
      rw [hdata, splitLinesAux_append l.data _ (h l (by simp))]
      have := ih (fun l' hl' => h l' (by simp [hl'])) (by simp)
      simp only [splitLines] at this
      simp [this]

/-! ### Identifier and annotation facts -/

theorem mk_data (s : String) : String.mk s.data = s := rfl

theorem identStart_identChar {c : Char} (h : isIdentStart c = true) :
    isIdentChar c = true := by
  simp only [isIdentStart, isIdentChar, Char.isAlphanum, Bool.or_eq_true] at *
  rcases h with h | h
  · exact Or.inl (Or.inl h)
  · exact Or.inr h

theorem validIdentChars_all :
    ∀ (cs : List Char), validIdentChars cs = true → ∀ c ∈ cs, isIdentChar c = true
  | [], h => by cases h
  | c :: rest, h => by
    simp only [validIdentChars, Bool.and_eq_true] at h
    obtain ⟨⟨hstart, hall⟩, -⟩ := h
    intro d hd
    rcases List.mem_cons.mp hd with hd | hd
    · exact hd ▸ identStart_identChar hstart
    · exact List.all_eq_true.mp hall d hd

theorem validIdent_all {s : String} (h : validIdent s = true) :
    ∀ c ∈ s.data, isIdentChar c = true :=
  validIdentChars_all s.data h

theorem identChar_ne {c : Char} (h : isIdentChar c = true) {d : Char}
    (hd : isIdentChar d = false) : c ≠ d := by
  intro he; rw [he, hd] at h; cases h

theorem validIdent_no_newline {s : String} (h : validIdent s = true) :
    '\n' ∉ s.data := by
  intro hm
  exact absurd (validIdent_all h '\n' hm) (by decide)

theorem resolvable_facts (t : FieldType) (h : resolvableTag t = true) :
    resolveAnn t.value = .ok (tyOf t) ∧ '=' ∉ t.value.data
      ∧ '\n' ∉ t.value.data ∧ t ≠ FieldType.LITERAL := by
  cases t <;>
    first
      | exact absurd h (by decide)
      | exact ⟨rfl, by decide, by decide, by decide⟩

theorem typeAnnStr_of_resolvable (f : GeneratedField)
    (h : resolvableTag f.type = true) : f.typeAnnStr = f.type.value := by
  unfold GeneratedField.typeAnnStr
  rw [if_neg]
  rintro ⟨hl, -⟩
  rw [hl] at h
  exact absurd h (by decide)

/-! ### Inversion of the field-line parser on rendered field lines -/

theorem parseFieldLine_inv (f : GeneratedField) (hf : GoodField f) :
    parseFieldLine ("    " ++ f.to_dspy_field_code)
      = .ok ⟨f.name, tyOf f.type, f.role,
          if f.description = "" then none else some f.description⟩ := by
  obtain ⟨nm, ty, rl, ds, lv, dv⟩ := f
  obtain ⟨hname, hdspy, hdesc, htag⟩ := hf
  simp only at hname hdspy hdesc htag
  have hnameAll : ∀ c ∈ nm.data, isIdentChar c = true := validIdent_all hname
  have hvalid : validIdentChars nm.data = true := hname
  have htakeN : ∀ (l : List Char),
      List.takeWhile isIdentChar (nm.data ++ ':' :: l) = nm.data :=
    fun l => takeWhile_append_cons _ _ _ _ hnameAll (by decide)
  have hdropN : ∀ (l : List Char),
      List.dropWhile isIdentChar (nm.data ++ ':' :: l) = ':' :: l :=
    fun l => dropWhile_append_cons _ _ _ _ hnameAll (by decide)
  have hdescAll : ∀ c ∈ ds.data, (!decide (c = '"')) = true := by
    intro c hc
    simpa using (hdesc c hc).1
  have htakeD : ∀ (l : List Char),
      List.takeWhile (fun c => !decide (c = '"')) (ds.data ++ '"' :: l) = ds.data :=
    fun l => takeWhile_append_cons _ _ _ _ hdescAll (by decide)
  have hdropD : ∀ (l : List Char),
      List.dropWhile (fun c => !decide (c = '"')) (ds.data ++ '"' :: l) = '"' :: l :=
    fun l => dropWhile_append_cons _ _ _ _ hdescAll (by decide)
  have hdspyD : ¬ nm.data = "dspy".data := fun h => hdspy (String.ext h)
  by_cases hd : ds = ""
  case pos =>
    subst hd
    cases rl <;>
      cases ty <;>
      first
        | exact absurd htag (by decide)
        | (simp only [GeneratedField.to_dspy_field_code]
           rw [if_pos trivial]
           simp [parseFieldLine,
             GeneratedField.typeAnnStr, GeneratedField.fieldTypeMarker,
             GeneratedField.hasLiteralValues, FieldType.value, tyOf, resolveAnn,
             String.data_append, List.append_assoc, List.cons_append,
             stripPrefixChars, splitAtEqSep, String.ext_iff,
             htakeN, hdropN, hvalid, hdspyD])
  case neg =>
    cases rl <;>
      cases ty <;>
      first
        | exact absurd htag (by decide)
        | (simp only [GeneratedField.to_dspy_field_code]
           rw [if_neg hd]
           simp [parseFieldLine,
             GeneratedField.typeAnnStr, GeneratedField.fieldTypeMarker,
             GeneratedField.hasLiteralValues, FieldType.value, tyOf, resolveAnn,
             String.data_append, List.append_assoc, List.cons_append,
             stripPrefixChars, splitAtEqSep, String.ext_iff,
             htakeN, hdropN, htakeD, hdropD, hvalid, hdspyD, hd])

/-! ### Line classification of rendered code lines -/

theorem takeWhile_ne_quote (s : String) (hs : ∀ c ∈ s.data, c ≠ '"')
    (l : List Char) :
    List.takeWhile (fun c => !decide (c = '"')) (s.data ++ '"' :: l) = s.data :=
  takeWhile_append_cons _ _ _ _ (fun c hc => by simpa using hs c hc) (by decide)

theorem dropWhile_ne_quote (s : String) (hs : ∀ c ∈ s.data, c ≠ '"')
    (l : List Char) :
    List.dropWhile (fun c => !decide (c = '"')) (s.data ++ '"' :: l) = '"' :: l :=
  dropWhile_append_cons _ _ _ _ (fun c hc => by simpa using hs c hc) (by decide)

theorem isIndented_append4 (x : String) : isIndented ("    " ++ x) = true := by
  simp [isIndented, String.data_append, stripPrefixChars]

theorem docLine (task : String) :
    ("    \"\"\"" ++ task ++ "\"\"\"").data
      = [' ', ' ', ' ', ' ', '"', '"', '"'] ++ (task.data ++ ['"', '"', '"']) := by
  simp [String.data_append]

theorem isIndented_docLine (task : String) :
    isIndented ("    \"\"\"" ++ task ++ "\"\"\"") = true := by
  simp [isIndented, docLine, stripPrefixChars]

theorem isBlank_docLine (task : String) :
    isBlank ("    \"\"\"" ++ task ++ "\"\"\"") = false := by
  simp [isBlank, docLine]

theorem isDocstringLine_docLine (task : String) :
    isDocstringLine ("    \"\"\"" ++ task ++ "\"\"\"") = true := by
  simp [isDocstringLine, docLine, stripPrefixChars]

theorem parseDocstringLine_inv (task : String) (h : NoBadChars task) :
    parseDocstringLine ("    \"\"\"" ++ task ++ "\"\"\"") = .ok task := by
  have hq : ∀ c ∈ task.data, c ≠ '"' := fun c hc => (h c hc).1
  simp [parseDocstringLine, docLine, stripPrefixChars,
    takeWhile_ne_quote task hq, dropWhile_ne_quote task hq, mk_data]

theorem fieldLine_shape (f : GeneratedField) :
    ∃ (tail : List Char),
      ("    " ++ f.to_dspy_field_code).data
        = [' ', ' ', ' ', ' '] ++ (f.name.data ++ ':' :: tail) := by
  unfold GeneratedField.to_dspy_field_code
  split
  · refine ⟨' ' :: (f.typeAnnStr.data ++ ' ' :: '=' :: ' ' :: 'd' :: 's' :: 'p'
      :: 'y' :: '.' :: (f.fieldTypeMarker.data ++ ['(', ')'])), ?_⟩
    simp [String.data_append, List.append_assoc]
  · refine ⟨' ' :: (f.typeAnnStr.data ++ ' ' :: '=' :: ' ' :: 'd' :: 's' :: 'p'
      :: 'y' :: '.' :: (f.fieldTypeMarker.data ++ '(' :: 'd' :: 'e' :: 's'
        :: 'c' :: '=' :: '"' :: (f.description.data ++ ['"', ')']))), ?_⟩
    simp [String.data_append, List.append_assoc]

theorem isIndented_fieldLine (f : GeneratedField) :
    isIndented ("    " ++ f.to_dspy_field_code) = true :=
  isIndented_append4 _

theorem isBlank_fieldLine (f : GeneratedField) :
    isBlank ("    " ++ f.to_dspy_field_code) = false := by
  obtain ⟨tail, htail⟩ := fieldLine_shape f
  simp [isBlank, htail]

theorem isBlank_header (nm : String) :
    isBlank ("class " ++ nm ++ "(dspy.Signature):") = false := by
  simp [isBlank, String.data_append]

theorem parseClassHeader_inv (nm : String) (h : validIdent nm = true) :
    parseClassHeader ("class " ++ nm ++ "(dspy.Signature):") = some nm := by
  have hall : ∀ c ∈ nm.data, isIdentChar c = true := validIdent_all h
  have htake : ∀ (l : List Char),
      List.takeWhile isIdentChar (nm.data ++ '(' :: l) = nm.data :=
    fun l => takeWhile_append_cons _ _ _ _ hall (by decide)
  have hdrop : ∀ (l : List Char),
      List.dropWhile isIdentChar (nm.data ++ '(' :: l) = '(' :: l :=
    fun l => dropWhile_append_cons _ _ _ _ hall (by decide)
  have hv : validIdentChars nm.data = true := h
  simp [parseClassHeader, String.data_append, List.append_assoc,
    stripPrefixChars, htake, hdrop, hv, mk_data]

/-! ### Newline-freedom of rendered code lines -/

theorem no_newline_header (nm : String) (h : validIdent nm = true) :
    '\n' ∉ ("class " ++ nm ++ "(dspy.Signature):").data := by
  intro hm
  simp [String.data_append] at hm
  exact validIdent_no_newline h hm

theorem no_newline_docLine (task : String) (h : NoBadChars task) :
    '\n' ∉ ("    \"\"\"" ++ task ++ "\"\"\"").data := by
  intro hm
  simp [docLine] at hm
  exact (h '\n' hm).2.1 rfl

theorem no_newline_fieldLine (f : GeneratedField) (hf : GoodField f) :
    '\n' ∉ ("    " ++ f.to_dspy_field_code).data := by
  obtain ⟨hname, -, hdesc, htag⟩ := hf
  have h1 := validIdent_no_newline hname
  obtain ⟨-, -, hann, -⟩ := resolvable_facts f.type htag
  have hds : '\n' ∉ f.description.data := fun hm => (hdesc '\n' hm).2.1 rfl
  have hmk : '\n' ∉ f.fieldTypeMarker.data := by
    unfold GeneratedField.fieldTypeMarker
    split <;> decide
  unfold GeneratedField.to_dspy_field_code
  rw [typeAnnStr_of_resolvable f htag]
  split <;>
    · intro hm
      simp [String.data_append] at hm
      tauto

theorem no_newline_code_lines (p : Prediction) (hp : GoodPrediction p) :
    ∀ l ∈ generate_code_lines p, '\n' ∉ l.data := by
  obtain ⟨hname, htask, -, hfields, -⟩ := hp
  intro l hl
  simp only [generate_code_lines, List.mem_cons, List.mem_map] at hl
  rcases hl with rfl | hl
  · exact no_newline_header _ hname
  rcases hl with rfl | hl
  · exact no_newline_docLine _ htask
  rcases hl with rfl | hl
  · decide
  obtain ⟨f, hf, rfl⟩ := hl
  exact no_newline_fieldLine f (hfields f hf)

/-! ### Assembling the round trip -/

theorem mapMExcept_fieldLines (fs : List GeneratedField)
    (h : ∀ f ∈ fs, GoodField f) :
    mapMExcept parseFieldLine (fs.map fun f => "    " ++ f.to_dspy_field_code)
      = .ok (fs.map expectedField) := by
  induction fs with
  | nil => rfl
  | cons f rest ih =>
    have hf := h f (by simp)
    have hrest := ih fun g hg => h g (by simp [hg])
    simp [mapMExcept, parseFieldLine_inv f hf, hrest, expectedField,
      Except.bind, bind, pure, Except.pure]

theorem lastWithName_eq_default (n : String) (d : ParsedField)
    (fs : List ParsedField) (h : ∀ g ∈ fs, g.name ≠ n) :
    lastWithName n d fs = d := by
  induction fs generalizing d with
  | nil => rfl
  | cons f rest ih =>
    have hf : f.name ≠ n := h f (by simp)
    simp only [lastWithName, hf, if_false]
    exact ih d fun g hg => h g (by simp [hg])

theorem dedupFieldsAux_of_nodup :
    ∀ (fuel : Nat) (fs : List ParsedField), fs.length ≤ fuel →
      (fs.map fun g => g.name).Nodup → dedupFieldsAux fuel fs = fs
  | 0, [], _, _ => rfl
  | _ + 1, [], _, _ => rfl
  | 0, _ :: _, h, _ => by simp at h
  | fuel + 1, f :: rest, h, hn => by
    rw [List.map_cons, List.nodup_cons] at hn
    obtain ⟨hnot, hrest⟩ := hn
    have hne : ∀ g ∈ rest, g.name ≠ f.name := by
      intro g hg he
      exact hnot (he ▸ List.mem_map_of_mem _ hg)
    have hfilter : rest.filter (fun g => g.name ≠ f.name) = rest :=
      List.filter_eq_self.mpr fun g hg => by simpa using hne g hg
    have hlen : rest.length ≤ fuel := Nat.le_of_succ_le_succ (by simpa using h)
    simp only [dedupFieldsAux, lastWithName_eq_default _ _ _ hne, hfilter,
      dedupFieldsAux_of_nodup fuel rest hlen hrest]

theorem dedupFields_of_nodup (fs : List ParsedField)
    (h : (fs.map fun g => g.name).Nodup) : dedupFields fs = fs :=
  dedupFieldsAux_of_nodup fs.length fs (Nat.le_refl _) h

theorem parseBlock_inv (p : Prediction) (hp : GoodPrediction p) :
    parseBlock p.signature_name
        (("    \"\"\"" ++ p.task_description ++ "\"\"\"")
          :: "" :: (p.signature_fields.map fun f => "    " ++ f.to_dspy_field_code))
      = .ok ⟨p.signature_name, some p.task_description,
          p.signature_fields.map expectedField⟩ := by
  obtain ⟨-, htask, -, hfields, hnodup⟩ := hp
  have hfilter :
      (p.signature_fields.map fun f => "    " ++ f.to_dspy_field_code).filter
          (fun l => !isBlank l)
        = p.signature_fields.map fun f => "    " ++ f.to_dspy_field_code :=
    List.filter_eq_self.mpr fun l hl => by
      obtain ⟨f, -, rfl⟩ := List.mem_map.mp hl
      simp [isBlank_fieldLine]
  have hnodup' : ((p.signature_fields.map expectedField).map fun g => g.name).Nodup := by
    rw [List.map_map]
    exact hnodup
  simp [parseBlock, List.filter, isBlank_docLine, hfilter,
    isDocstringLine_docLine, parseDocstringLine_inv _ htask,
    mapMExcept_fieldLines _ hfields, dedupFields_of_nodup _ hnodup',
    show isBlank "" = true from rfl, bind, Except.bind, pure, Except.pure,
    Functor.map, Except.map]

theorem parseClassHeader_of_indented (l : String) (h : isIndented l = true) :
    parseClassHeader l = none := by
  unfold isIndented at h
  unfold parseClassHeader
  cases hd : l.data with
  | nil => rw [hd] at h; simp [stripPrefixChars] at h
  | cons c rest =>
    rw [hd] at h
    have hc : c = ' ' := by
      by_contra hne
      simp [stripPrefixChars, hne] at h
    subst hc
    simp [show ("class " : String).data = ['c', 'l', 'a', 's', 's', ' '] from rfl,
      stripPrefixChars]

theorem splitBlocksAux_body :
    ∀ (lines : List String) (n : String) (acc : List String),
      (∀ l ∈ lines, isBlank l = true ∨ isIndented l = true) →
      splitBlocksAux lines (some (n, acc)) = .ok [(n, acc ++ lines)]
  | [], n, acc, _ => by simp [splitBlocksAux]
  | line :: rest, n, acc, h => by
    have hrec := splitBlocksAux_body rest n (acc ++ [line])
      (fun l hl => h l (by simp [hl]))
    by_cases hb : isBlank line = true
    · simp only [splitBlocksAux, hb, if_true]
      rw [hrec]
      simp
    · have hi : isIndented line = true := (h line (by simp)).resolve_left hb
      simp only [splitBlocksAux, hb, if_false,
        parseClassHeader_of_indented line hi, hi, if_true]
      rw [hrec]
      simp

theorem splitBlocksAux_header (line : String) (rest : List String) (nm : String)
    (hb : isBlank line = false) (hh : parseClassHeader line = some nm) :
    splitBlocksAux (line :: rest) none = splitBlocksAux rest (some (nm, [])) := by
  simp only [splitBlocksAux, hb, Bool.false_eq_true, if_false, hh]

theorem splitBlocks_single (p : Prediction) (hp : GoodPrediction p) :
    splitBlocks (generate_code_lines p)
      = .ok [(p.signature_name,
          ("    \"\"\"" ++ p.task_description ++ "\"\"\"")
            :: "" :: (p.signature_fields.map fun f => "    " ++ f.to_dspy_field_code))] := by
  obtain ⟨hname, -, -, -, -⟩ := hp
  have hbody : ∀ l ∈ ("    \"\"\"" ++ p.task_description ++ "\"\"\"")
      :: "" :: (p.signature_fields.map fun f => "    " ++ f.to_dspy_field_code),
      isBlank l = true ∨ isIndented l = true := by
    intro l hl
    rcases List.mem_cons.mp hl with rfl | hl
    · exact Or.inr (isIndented_docLine _)
    rcases List.mem_cons.mp hl with rfl | hl
    · exact Or.inl rfl
    obtain ⟨f, -, rfl⟩ := List.mem_map.mp hl
    exact Or.inr (isIndented_fieldLine _)
  unfold splitBlocks generate_code_lines
  rw [splitBlocksAux_header _ _ _ (isBlank_header _) (parseClassHeader_inv _ hname),
    splitBlocksAux_body _ _ _ hbody]
  simp

theorem generate_code_parses (p : Prediction) (hp : GoodPrediction p) :
    from_dspy_string (generate_code p)
      = .ok ⟨p.signature_name, some p.task_description,
          p.signature_fields.map expectedField⟩ := by
  have hlines : splitLines (generate_code p) = generate_code_lines p :=
    splitLines_joinLines _ (no_newline_code_lines p hp)
      (by simp [generate_code_lines])
  unfold from_dspy_string execModel
  rw [hlines]
  simp [splitBlocks_single p hp, mapMExcept, parseBlock_inv p hp,
    bind, Except.bind, pure, Except.pure,
    dedupSigs, dedupSigsAux, lastWithClassName]

/-! ## Claim theorems -/

/-- C1 counterexample: a single-field prediction using the closed tag
`Optional[str]` renders to code whose annotation references the name
`Optional`, which is absent from the exec namespace of the parser, so parsing
the rendered text fails instead of returning a matching signature — the
round trip does not hold for every prediction over the sixteen tags. -/
theorem C1_counterexample :
    from_dspy_string (generate_code
        ⟨"Foo", "T", [⟨"x", FieldType.OPTIONAL_STR, FieldRole.INPUT, "d", none, none⟩], none⟩)
      = .error "An unexpected error occurred: name \x27Optional\x27 is not defined" := rfl

/-- C1 (amended): for every Generated-Signature Prediction with a
non-empty field list, a valid class-name identifier, safe docstring and
description text, pairwise-distinct valid non-shadowing field names, and
the tag of every field among the eleven closed tags whose annotation resolves
in the exec namespace of the parser (i.e. excluding `Literal`, the three
`Optional` tags, and `dict[str, Any]`), rendering with `generate_code`
and parsing with `from_dspy_string` succeeds and yields a signature whose
class name, field names, field roles, and field count exactly equal those
of the prediction. -/
theorem C1_roundtrip (p : Prediction) (hp : GoodPrediction p) :
    ∃ sig, from_dspy_string (generate_code p) = .ok sig
      ∧ sig.class_name = p.signature_name
      ∧ sig.fields.map (fun f => f.name) = p.signature_fields.map (fun f => f.name)
      ∧ sig.fields.map (fun f => f.role) = p.signature_fields.map (fun f => f.role)
      ∧ sig.fields.length = p.signature_fields.length := by
  refine ⟨_, generate_code_parses p hp, rfl, ?_, ?_, ?_⟩ <;>
    simp [expectedField, List.map_map, Function.comp]

/-- C1 witness: the round-trip theorem applied to a concrete well-formed
two-field prediction. -/
theorem C1_roundtrip_witness :
    GoodPrediction basicPred
      ∧ ∃ sig, from_dspy_string (generate_code basicPred) = .ok sig
          ∧ sig.class_name = basicPred.signature_name
          ∧ sig.fields.map (fun f => f.name)
              = basicPred.signature_fields.map (fun f => f.name)
          ∧ sig.fields.map (fun f => f.role)
              = basicPred.signature_fields.map (fun f => f.role)
          ∧ sig.fields.length = basicPred.signature_fields.length :=
  ⟨by decide, C1_roundtrip basicPred (by decide)⟩

/-- C2: the claim fails on the code: `json.loads` is called outside the
`try` block of `run_prediction`, so with a loaded program and a
configured handle, a syntactically invalid JSON input makes the decode
error propagate to the caller instead of being returned as an empty
mapping with a failure status.  The result is the same for every engine
oracle, which also shows the engine is not invoked. -/
theorem C2_malformed_json_raises :
    ∀ engine : EngineOracle,
      run_prediction engine (some sampleSig) "not json" (some (some sampleLM))
        = .error "Expecting value" :=
  fun _ => rfl

/-- C3 counterexample: with the LM state `\x7b"configured": None\x7d` —
a state whose configured handle is absent — `generate_signature` in
string mode does NOT short-circuit: it parses the example text, returns a
present program and the "Signature Loaded" status rather than the fixed
configure-first status. -/
theorem C3_counterexample :
    (generate_signature EXAMPLE_CLASS_STRING "p" "string" (some none)).2.2.2
        = signatureLoadedMsg
      ∧ (generate_signature EXAMPLE_CLASS_STRING "p" "string" (some none)).2.1
          ≠ none := by
  exact ⟨rfl, by decide⟩

/-- C3 (amended): `generate_signature` short-circuits only when the LM
state value itself is Python-falsy (absent), not when the state dictionary
wraps an absent handle; the short-circuit returns the EMPTY string rather
than the original signature text, together with an absent program, the
empty-object template, and the fixed configure-first status, for every
mode and input (no parse attempted); a truthy state wrapping an absent
handle proceeds to parse in string mode. -/
theorem C3_amended_gate :
    (∀ (signature_string prompt mode : String),
        generate_signature signature_string prompt mode none
          = ("", none, "\x7b\x7d", configureFirstMsg))
      ∧ (generate_signature EXAMPLE_CLASS_STRING "p" "string" (some none)).2.2.2
          = signatureLoadedMsg :=
  ⟨fun _ _ _ => rfl, rfl⟩

/-- C4 counterexample: a `GeneratedField` with the literal tag and absent
`literal_values` is constructible (the pydantic model declares no
validator relating the two attributes), contradicting the claimed
construction-time invariant. -/
theorem C4_counterexample :
    ∃ f : GeneratedField,
      f.type = FieldType.LITERAL ∧ f.literal_values = none :=
  ⟨⟨"x", FieldType.LITERAL, FieldRole.INPUT, "", none, none⟩, rfl, rfl⟩

/-- C4 (amended): `GeneratedField` enforces no invariant between
`literal_values` and `type`: every combination of tag and values is
constructible; a literal-tagged field without truthy values falls through
to the bare `Literal` annotation in code rendering and to the
unsupported-type error in the dynamic type mapping. -/
theorem C4_no_invariant :
    (∀ (t : FieldType) (lv : Option (List String)),
        ∃ f : GeneratedField, f.type = t ∧ f.literal_values = lv)
      ∧ ∀ f : GeneratedField, f.type = FieldType.LITERAL →
          f.hasLiteralValues = false →
          f.typeAnnStr = "Literal"
            ∧ getPythonTypeFromField f
                = .error "Unsupported field type for dynamic class creation: Literal" := by
  constructor
  · intro t lv
    exact ⟨⟨"x", t, FieldRole.INPUT, "", lv, none⟩, rfl, rfl⟩
  · intro f ht hv
    constructor
    · unfold GeneratedField.typeAnnStr
      rw [if_neg fun hc => by rw [hv] at hc; exact Bool.false_ne_true hc.2, ht]
      rfl
    · unfold getPythonTypeFromField getPythonTypeCore
      rw [ht]
      rw [if_neg fun hc => by
        unfold GeneratedField.hasLiteralValues at hv
        rw [hv] at hc
        exact Bool.false_ne_true hc.2]
      rfl

/-- C4 witness: the fall-through behaviour at a concrete literal-tagged
field without values. -/
theorem C4_no_invariant_witness :
    (⟨"x", FieldType.LITERAL, FieldRole.INPUT, "", none, none⟩
        : GeneratedField).typeAnnStr = "Literal"
      ∧ getPythonTypeFromField
          ⟨"x", FieldType.LITERAL, FieldRole.INPUT, "", none, none⟩
        = .error "Unsupported field type for dynamic class creation: Literal" :=
  C4_no_invariant.2 ⟨"x", FieldType.LITERAL, FieldRole.INPUT, "", none, none⟩ rfl rfl

/-- C6: with a loaded program and configured handle, an input that parses
as JSON but is not an object yields the empty output mapping and the
fixed failure status; the result is independent of the engine oracle
(the engine is not invoked). -/
theorem C6_non_object_json (engine : EngineOracle) (prog : ParsedSignature)
    (h : LMHandle) (s : String) (v : JsonVal)
    (hparse : json_loads s = .ok v) (hobj : v.isObj = false) :
    run_prediction engine (some prog) s (some (some h))
      = .ok ([], "❌ Error: Input must be valid JSON.") := by
  unfold run_prediction
  rw [hparse]
  cases v <;> first | rfl | (exact absurd hobj (by simp [JsonVal.isObj]))

/-- C6 witness: the non-object case at input [1,2,3] with an engine
oracle that would fail if invoked. -/
theorem C6_witness :
    run_prediction (fun _ => .error "boom") (some sampleSig) "[1,2,3]"
        (some (some sampleLM))
      = .ok ([], "❌ Error: Input must be valid JSON.") :=
  C6_non_object_json _ _ _ _ (.arr [.num 1, .num 2, .num 3]) rfl rfl

/-- C7: for a signature text parsing to a signature with input fields
[a, b] in that order and output fields [c], the computed input template
is the serialized JSON object with exactly keys a then b, each mapped to
the placeholder. -/
theorem C7_input_template (signature_string prompt : String) (h : LMHandle)
    (sig : ParsedSignature) (a b c : String)
    (hparse : from_dspy_string signature_string = .ok sig)
    (hin : get_fields_by_type sig "input" = [a, b])
    (hout : get_fields_by_type sig "output" = [c])
    (hab : a ≠ b) :
    (generate_signature signature_string prompt "string" (some (some h))).2.2.1
      = json_dumps_indent2 [(a, "..."), (b, "...")] := by
  unfold generate_signature
  rw [if_neg (by decide : ¬("string" = "prompt")), hparse]
  simp only
  rw [hin]
  simp [dict_fromkeys, assocInsert, hab]

/-- C7 witness: the template at a concrete signature with inputs a, b and
output c. -/
theorem C7_witness :
    (generate_signature twoInputSig "p" "string" (some (some sampleLM))).2.2.1
      = json_dumps_indent2 [("a", "..."), ("b", "...")] :=
  C7_input_template twoInputSig "p" sampleLM
    ⟨"T", some "d",
     [⟨"a", .str, FieldRole.INPUT, some "x"⟩,
      ⟨"b", .str, FieldRole.INPUT, some "y"⟩,
      ⟨"c", .str, FieldRole.OUTPUT, some "z"⟩]⟩
    "a" "b" "c" rfl rfl rfl (by decide)

/-- C8: for each of the fifteen non-literal tags, dynamic class creation
on a single-field prediction succeeds and annotates the field exactly
with the type given by the mapping table of the spec; for the literal tag with
allowed values ["a","b"], the field is annotated with the literal type
over exactly those two values. -/
theorem C8_type_mapping :
    (∀ t : FieldType, t ≠ FieldType.LITERAL →
        create_signature_class (singleFieldPrediction t none)
          = .ok ⟨"Sig", "doc", [("field1", specTypeTable t, FieldRole.INPUT, "d")]⟩)
      ∧ create_signature_class
            (singleFieldPrediction FieldType.LITERAL (some ["a", "b"]))
          = .ok ⟨"Sig", "doc",
              [("field1", PyType.literalTy ["a", "b"], FieldRole.INPUT, "d")]⟩ := by
  constructor
  · intro t ht
    cases t <;> first | exact absurd rfl ht | rfl
  · rfl

/-- C8 witness: the table case at the plain string tag. -/
theorem C8_witness :
    create_signature_class (singleFieldPrediction FieldType.STRING none)
      = .ok ⟨"Sig", "doc",
          [("field1", specTypeTable FieldType.STRING, FieldRole.INPUT, "d")]⟩ :=
  C8_type_mapping.1 FieldType.STRING (by decide)

/-- C9: a tag string with no entry in the fifteen-row table that is not
the literal tag accompanied by non-empty values makes the type mapping
fail with a TypeError-kind error naming the offending tag; in particular
a literal-tagged field with absent or empty values makes
`create_signature_class` fail with that error naming `Literal`. -/
theorem C9_unsupported_type :
    (∀ (type_str : String) (lits : Option (List String)),
        type_map.lookup type_str = none →
        ¬(type_str = "Literal" ∧ (lits.getD []).isEmpty = false) →
        getPythonTypeCore type_str lits
          = .error ("Unsupported field type for dynamic class creation: " ++ type_str))
      ∧ ∀ lv : Option (List String), (lv.getD []).isEmpty = true →
          create_signature_class (singleFieldPrediction FieldType.LITERAL lv)
            = .error "Unsupported field type for dynamic class creation: Literal" := by
  constructor
  · intro ts lits hlk hcond
    unfold getPythonTypeCore
    rw [if_neg fun hc => hcond ⟨hc.1, by simpa using hc.2⟩, hlk]
  · intro lv hv
    unfold create_signature_class singleFieldPrediction
    simp only [List.foldlM, getPythonTypeFromField, getPythonTypeCore,
      FieldType.value, bind, Except.bind]
    rw [if_neg fun hc => by rw [hv] at hc; exact Bool.false_ne_true hc.2]
    rfl

/-- C9 witness: a tag string outside the closed set, and the literal tag
with absent values. -/
theorem C9_witness :
    getPythonTypeCore "set[str]" none
        = .error "Unsupported field type for dynamic class creation: set[str]"
      ∧ create_signature_class (singleFieldPrediction FieldType.LITERAL none)
          = .error "Unsupported field type for dynamic class creation: Literal" :=
  ⟨C9_unsupported_type.1 "set[str]" none rfl (by decide),
   C9_unsupported_type.2 none rfl⟩

/-- C10: a field with an empty description renders with no desc argument
at all, a field with a non-empty description renders with
desc="(description)", and the rendered line of every field appears (with the
class-body indent) among the lines emitted by generate_code. -/
theorem C10_desc_rendering :
    (∀ f : GeneratedField, f.description = "" →
        f.to_dspy_field_code
          = f.name ++ ": " ++ f.typeAnnStr ++ " = dspy." ++ f.fieldTypeMarker ++ "()")
      ∧ (∀ f : GeneratedField, f.description ≠ "" →
          f.to_dspy_field_code
            = f.name ++ ": " ++ f.typeAnnStr ++ " = dspy." ++ f.fieldTypeMarker
                ++ "(desc=\"" ++ f.description ++ "\")")
      ∧ ∀ (p : Prediction) (f : GeneratedField), f ∈ p.signature_fields →
          ("    " ++ f.to_dspy_field_code) ∈ generate_code_lines p := by
  refine ⟨fun f h => by simp [GeneratedField.to_dspy_field_code, h],
    fun f h => by simp [GeneratedField.to_dspy_field_code, h], fun p f hf => ?_⟩
  simp only [generate_code_lines, List.mem_cons, List.mem_map]
  exact Or.inr (Or.inr (Or.inr ⟨f, hf, rfl⟩))

/-- C10 witness: the two rendering shapes and line membership at concrete
fields. -/
theorem C10_witness :
    (⟨"x", FieldType.STRING, FieldRole.INPUT, "", none, none⟩
        : GeneratedField).to_dspy_field_code = "x: str = dspy.InputField()"
      ∧ (⟨"y", FieldType.STRING, FieldRole.OUTPUT, "hi", none, none⟩
          : GeneratedField).to_dspy_field_code = "y: str = dspy.OutputField(desc=\"hi\")"
      ∧ ("    " ++ (⟨"field1", FieldType.STRING, FieldRole.INPUT, "d", none, none⟩
          : GeneratedField).to_dspy_field_code)
          ∈ generate_code_lines (singleFieldPrediction FieldType.STRING none) :=
  ⟨C10_desc_rendering.1 ⟨"x", FieldType.STRING, FieldRole.INPUT, "", none, none⟩ rfl,
   C10_desc_rendering.2.1 ⟨"y", FieldType.STRING, FieldRole.OUTPUT, "hi", none, none⟩
     (by decide),
   C10_desc_rendering.2.2 (singleFieldPrediction FieldType.STRING none)
     ⟨"field1", FieldType.STRING, FieldRole.INPUT, "d", none, none⟩ (by decide)⟩

end QuickCallDspy
